import Mathlib

/-
Verification of the black-oil fluid-state container and the PVT saturated-line
contracts of the opm-material repository.

The fluid-state container (BlackOilFluidStateSimple) is embedded directly from
the C++ header.  Scalars are modelled by the rationals; the per-phase arrays
are modelled as total functions from storage indices; the compile-time feature
flags (enableTemperature, enableEnergy, enableDissolution) become Bool
parameters of the structure; the conditional storage of optional fields
becomes a Bool-indexed type that holds the payload exactly when the flag is
set; the function-local static variable inside the temperature accessor is
made explicit as a cache value that is threaded through the call.

The single-phase PVT models, the phase-activity tables of the fluid system and
the generic helpers used by assign are not part of the supplied sources (only
their callers are); those are modelled from the specification, and every such
definition carries a doc comment starting with "Modelled from the spec:".
-/

namespace Opm

/-- Modelled from the spec: ConditionalStorage, "a storage wrapper that holds
a value only if a compile-time flag is true, otherwise occupies no space and
aborts/no-ops access".  The payload is present exactly when the flag is true. -/
def CondVal : Bool → Type → Type
  | true, α => α
  | false, _ => PUnit

/-- Read the stored value, or the supplied fallback when the flag is off. -/
def CondVal.getOrElse {α : Type} : (b : Bool) → CondVal b α → α → α
  | true, v, _ => v
  | false, _, d => d

/-- Overwrite the stored value; a no-op when the flag is off (the write target
does not exist in that configuration). -/
def CondVal.set {α : Type} : (b : Bool) → CondVal b α → α → CondVal b α
  | true, _, v => v
  | false, u, _ => u

/-- Modelled from the spec: dereferencing the conditional storage "aborts
access" when the flag is off; the abort is modelled by none. -/
def CondVal.deref {α : Type} : (b : Bool) → CondVal b α → Option α
  | true, v => some v
  | false, _ => none

/-- Update the stored value in place when the flag is on. -/
def CondVal.modify {α : Type} : (b : Bool) → (α → α) → CondVal b α → CondVal b α
  | true, f, v => f v
  | false, _, u => u

/-- Dereference-then-write, with the debug abort of the disabled storage
modelled by none. -/
def CondVal.modifyChecked {α : Type} : (b : Bool) → (α → α) → CondVal b α → Option (CondVal b α)
  | true, f, v => some (f v)
  | false, _, _ => none

/-- Build a conditional value from a default payload (for concrete states). -/
def CondVal.fill {α : Type} : (b : Bool) → α → CondVal b α
  | true, v => v
  | false, _ => PUnit.unit

/-- Modelled from the spec: the slice of the BlackOilFluidSystem facade that
BlackOilFluidStateSimple consumes — the per-region reservoir temperature and
the two directions of the active-phase index table. -/
structure FSys where
  reservoirTemperature : ℕ → ℚ
  activeToCanonicalPhaseIdx : ℕ → ℕ
  canonicalToActivePhaseIdx : ℕ → ℕ

/-- Modelled from the spec: the list of canonical indices of the active
phases, in canonical order (water = 0, oil = 1, gas = 2), densely packed. -/
def mkActiveList (aw ao ag : Bool) : List ℕ :=
  (if aw then [0] else []) ++ (if ao then [1] else []) ++ (if ag then [2] else [])

/-- Modelled from the spec: the active-to-canonical direction of the
active-phase table: the i-th entry of the packed active list. -/
def activeToCanonical (aw ao ag : Bool) (activePhaseIdx : ℕ) : ℕ :=
  (mkActiveList aw ao ag).getD activePhaseIdx 0

/-- Modelled from the spec: the canonical-to-active direction of the
active-phase table: the number of active phases preceding the canonical one. -/
def canonicalToActive (aw ao ag : Bool) (canonicalPhaseIdx : ℕ) : ℕ :=
  (mkActiveList aw ao ag).countP (fun k => decide (k < canonicalPhaseIdx))

/-- Modelled from the spec: a fluid system with a given active-phase
configuration and per-region reservoir temperature. -/
def mkFSys (aw ao ag : Bool) (resT : ℕ → ℚ) : FSys :=
  { reservoirTemperature := resT
    activeToCanonicalPhaseIdx := activeToCanonical aw ao ag
    canonicalToActivePhaseIdx := canonicalToActive aw ao ag }

/-- The tailor-made fluid state for the black-oil model, embedded from the
C++ class: per-storage-phase arrays become functions, the conditional fields
use CondVal with the corresponding feature flag, and the unsigned short
region index is a natural kept below 2^16 by its setter. -/
structure BlackOilFluidStateSimple (sys : FSys) (eT eE eD : Bool) (nSto : ℕ) where
  temperature_ : CondVal (eT || eE) ℚ
  enthalpy_ : CondVal eE (ℕ → ℚ)
  pressure_ : ℕ → ℚ
  saturation_ : ℕ → ℚ
  invB_ : ℕ → ℚ
  density_ : ℕ → ℚ
  Rs_ : CondVal eD ℚ
  Rv_ : CondVal eD ℚ
  pvtRegionIdx_ : ℕ

/-- Embedded from the source: identity when three phases are stored,
otherwise the fluid system's active-phase table. -/
def storageToCanonicalPhaseIndex_ (sys : FSys) (nSto : ℕ) (storagePhaseIdx : ℕ) : ℕ :=
  if nSto = 3 then storagePhaseIdx else sys.activeToCanonicalPhaseIdx storagePhaseIdx

/-- Embedded from the source: identity when three phases are stored,
otherwise the fluid system's active-phase table. -/
def canonicalToStoragePhaseIndex_ (sys : FSys) (nSto : ℕ) (canonicalPhaseIdx : ℕ) : ℕ :=
  if nSto = 3 then canonicalPhaseIdx else sys.canonicalToActivePhaseIdx canonicalPhaseIdx

/-- Pointwise update of an array modelled as a function. -/
def fnUpdate (f : ℕ → ℚ) (i : ℕ) (v : ℚ) : ℕ → ℚ :=
  fun j => if j = i then v else f j

variable {sys : FSys} {eT eE eD : Bool} {nSto : ℕ}

/-- setPvtRegionIndex: the static_cast to unsigned short keeps the value
modulo 2^16. -/
def setPvtRegionIndex (st : BlackOilFluidStateSimple sys eT eE eD nSto)
    (newPvtRegionIdx : ℕ) : BlackOilFluidStateSimple sys eT eE eD nSto :=
  { st with pvtRegionIdx_ := newPvtRegionIdx % 65536 }

/-- setPressure writes through the canonical-to-storage index map. -/
def setPressure (st : BlackOilFluidStateSimple sys eT eE eD nSto)
    (phaseIdx : ℕ) (p : ℚ) : BlackOilFluidStateSimple sys eT eE eD nSto :=
  { st with pressure_ := fnUpdate st.pressure_ (canonicalToStoragePhaseIndex_ sys nSto phaseIdx) p }

/-- setSaturation writes through the canonical-to-storage index map. -/
def setSaturation (st : BlackOilFluidStateSimple sys eT eE eD nSto)
    (phaseIdx : ℕ) (s : ℚ) : BlackOilFluidStateSimple sys eT eE eD nSto :=
  { st with saturation_ := fnUpdate st.saturation_ (canonicalToStoragePhaseIndex_ sys nSto phaseIdx) s }

/-- setInvB writes through the canonical-to-storage index map. -/
def setInvB (st : BlackOilFluidStateSimple sys eT eE eD nSto)
    (phaseIdx : ℕ) (b : ℚ) : BlackOilFluidStateSimple sys eT eE eD nSto :=
  { st with invB_ := fnUpdate st.invB_ (canonicalToStoragePhaseIndex_ sys nSto phaseIdx) b }

/-- setDensity writes through the canonical-to-storage index map. -/
def setDensity (st : BlackOilFluidStateSimple sys eT eE eD nSto)
    (phaseIdx : ℕ) (rho : ℚ) : BlackOilFluidStateSimple sys eT eE eD nSto :=
  { st with density_ := fnUpdate st.density_ (canonicalToStoragePhaseIndex_ sys nSto phaseIdx) rho }

/-- The write performed by setTemperature after its assertion has passed. -/
def setTemperature (st : BlackOilFluidStateSimple sys eT eE eD nSto)
    (value : ℚ) : BlackOilFluidStateSimple sys eT eE eD nSto :=
  { st with temperature_ := CondVal.set (eT || eE) st.temperature_ value }

/-- The write performed by setEnthalpy after its assertion has passed; the
write dereferences the energy conditional storage. -/
def setEnthalpy (st : BlackOilFluidStateSimple sys eT eE eD nSto)
    (phaseIdx : ℕ) (value : ℚ) : BlackOilFluidStateSimple sys eT eE eD nSto :=
  let newEnthalpy := CondVal.modify eE
    (fun h => fnUpdate h (canonicalToStoragePhaseIndex_ sys nSto phaseIdx) value) st.enthalpy_
  { st with enthalpy_ := newEnthalpy }

/-- setTemperature with the debug assertion made explicit: the source asserts
enableTemperature or enableEnergy before writing; an assertion failure is
modelled by none. -/
def setTemperatureChecked (st : BlackOilFluidStateSimple sys eT eE eD nSto)
    (value : ℚ) : Option (BlackOilFluidStateSimple sys eT eE eD nSto) :=
  if (eT || eE) = true then some (setTemperature st value) else none

/-- setEnthalpy with the debug assertion made explicit: the source asserts
enableTemperature or enableEnergy, then dereferences the conditional storage
of the enthalpy array, which itself aborts when the energy flag is off. -/
def setEnthalpyChecked (st : BlackOilFluidStateSimple sys eT eE eD nSto)
    (phaseIdx : ℕ) (value : ℚ) : Option (BlackOilFluidStateSimple sys eT eE eD nSto) :=
  if (eT || eE) = true then
    (CondVal.modifyChecked eE
        (fun h => fnUpdate h (canonicalToStoragePhaseIndex_ sys nSto phaseIdx) value)
        st.enthalpy_).map
      (fun e => { st with enthalpy_ := e })
  else none

/-- The write performed by setRs; the dissolution storage is overwritten. -/
def setRs (st : BlackOilFluidStateSimple sys eT eE eD nSto)
    (newRs : ℚ) : BlackOilFluidStateSimple sys eT eE eD nSto :=
  { st with Rs_ := CondVal.set eD st.Rs_ newRs }

/-- The write performed by setRv; the dissolution storage is overwritten. -/
def setRv (st : BlackOilFluidStateSimple sys eT eE eD nSto)
    (newRv : ℚ) : BlackOilFluidStateSimple sys eT eE eD nSto :=
  { st with Rv_ := CondVal.set eD st.Rv_ newRv }

/-- setRs with the dereference of the disabled conditional storage modelled
as an abort (none): such calls are not reachable when dissolution is off. -/
def setRsChecked (st : BlackOilFluidStateSimple sys eT eE eD nSto)
    (newRs : ℚ) : Option (BlackOilFluidStateSimple sys eT eE eD nSto) :=
  (CondVal.modifyChecked eD (fun _ => newRs) st.Rs_).map (fun r => { st with Rs_ := r })

/-- setRv with the dereference of the disabled conditional storage modelled
as an abort (none): such calls are not reachable when dissolution is off. -/
def setRvChecked (st : BlackOilFluidStateSimple sys eT eE eD nSto)
    (newRv : ℚ) : Option (BlackOilFluidStateSimple sys eT eE eD nSto) :=
  (CondVal.modifyChecked eD (fun _ => newRv) st.Rv_).map (fun r => { st with Rv_ := r })

/-- pressure accessor, reading through the canonical-to-storage index map. -/
def pressure (st : BlackOilFluidStateSimple sys eT eE eD nSto) (phaseIdx : ℕ) : ℚ :=
  st.pressure_ (canonicalToStoragePhaseIndex_ sys nSto phaseIdx)

/-- saturation accessor, reading through the canonical-to-storage index map. -/
def saturation (st : BlackOilFluidStateSimple sys eT eE eD nSto) (phaseIdx : ℕ) : ℚ :=
  st.saturation_ (canonicalToStoragePhaseIndex_ sys nSto phaseIdx)

/-- invB accessor, reading through the canonical-to-storage index map. -/
def invB (st : BlackOilFluidStateSimple sys eT eE eD nSto) (phaseIdx : ℕ) : ℚ :=
  st.invB_ (canonicalToStoragePhaseIndex_ sys nSto phaseIdx)

/-- density accessor, reading through the canonical-to-storage index map. -/
def density (st : BlackOilFluidStateSimple sys eT eE eD nSto) (phaseIdx : ℕ) : ℚ :=
  st.density_ (canonicalToStoragePhaseIndex_ sys nSto phaseIdx)

/-- temperature accessor.  When neither the temperature nor the energy
feature is enabled, the source returns a function-local static initialised on
first call from the reservoir temperature of the instance's region; the
static is modelled by the cache argument and the returned cache value.  In
the enabled configurations the stored temperature is returned and the cache
is untouched (no static exists there; the fallback 0 of the dereference is
unreachable since the storage is present exactly when a flag is on). -/
def temperature (cache : Option ℚ) (st : BlackOilFluidStateSimple sys eT eE eD nSto)
    (_phaseIdx : ℕ) : ℚ × Option ℚ :=
  if (!eT && !eE) = true then
    match cache with
    | some tmp => (tmp, some tmp)
    | none =>
        (sys.reservoirTemperature st.pvtRegionIdx_,
         some (sys.reservoirTemperature st.pvtRegionIdx_))
  else
    ((CondVal.deref (eT || eE) st.temperature_).getD 0, cache)

/-- Rs accessor: returns the static zero when dissolution is disabled. -/
def Rs (st : BlackOilFluidStateSimple sys eT eE eD nSto) : ℚ :=
  CondVal.getOrElse eD st.Rs_ 0

/-- Rv accessor: returns the static zero when dissolution is disabled. -/
def Rv (st : BlackOilFluidStateSimple sys eT eE eD nSto) : ℚ :=
  CondVal.getOrElse eD st.Rv_ 0

/-- pvtRegionIndex accessor. -/
def pvtRegionIndex (st : BlackOilFluidStateSimple sys eT eE eD nSto) : ℕ :=
  st.pvtRegionIdx_

/-- enthalpy accessor; dereferencing the disabled storage aborts (none). -/
def enthalpy (st : BlackOilFluidStateSimple sys eT eE eD nSto) (phaseIdx : ℕ) : Option ℚ :=
  (CondVal.deref eE st.enthalpy_).map
    (fun h => h (canonicalToStoragePhaseIndex_ sys nSto phaseIdx))

/-- internalEnergy accessor, embedded from the source expression
enthalpy minus pressure over density; it dereferences the energy storage. -/
def internalEnergy (st : BlackOilFluidStateSimple sys eT eE eD nSto) (phaseIdx : ℕ) : Option ℚ :=
  (CondVal.deref eE st.enthalpy_).map
    (fun h => h (canonicalToStoragePhaseIndex_ sys nSto phaseIdx)
      - pressure st phaseIdx / density st phaseIdx)

/-- An arbitrary source fluid state, exposing the canonical accessor surface
that assign consumes (spec: "any type exposing canonical-indexed pressure,
saturation, density, temperature, enthalpy accessors is acceptable"). -/
structure SourceFluidState where
  temperature : ℕ → ℚ
  pressure : ℕ → ℚ
  saturation : ℕ → ℚ
  density : ℕ → ℚ
  enthalpy : ℕ → ℚ
  pvtRegionIndex : ℕ
  Rs : ℚ
  Rv : ℚ
  invB : ℕ → ℚ

/-- Modelled from the spec: the generic helper pulling the PVT region index
from an arbitrary compatible state. -/
def getPvtRegionIndex_ (fs : SourceFluidState) : ℕ :=
  fs.pvtRegionIndex

/-- Modelled from the spec: the generic helper pulling Rs from an arbitrary
compatible state for a given region. -/
def getRs_ (fs : SourceFluidState) (_pvtRegionIdx : ℕ) : ℚ :=
  fs.Rs

/-- Modelled from the spec: the generic helper pulling Rv from an arbitrary
compatible state for a given region. -/
def getRv_ (fs : SourceFluidState) (_pvtRegionIdx : ℕ) : ℚ :=
  fs.Rv

/-- Modelled from the spec: the generic helper pulling the inverse formation
volume factor of a phase from an arbitrary compatible state. -/
def getInvB_ (fs : SourceFluidState) (phaseIdx : ℕ) (_pvtRegionIdx : ℕ) : ℚ :=
  fs.invB phaseIdx

/-- One iteration of the per-storage-phase loop of assign: map the storage
index to its canonical phase index, then copy saturation, pressure, density,
enthalpy when the energy feature is on, and the inverse formation volume
factor obtained through the generic helper. -/
def assignStep (fs : SourceFluidState) (pvtRegionIdx : ℕ) (storagePhaseIdx : ℕ)
    (st : BlackOilFluidStateSimple sys eT eE eD nSto) :
    BlackOilFluidStateSimple sys eT eE eD nSto :=
  let phaseIdx := storageToCanonicalPhaseIndex_ sys nSto storagePhaseIdx
  let a := setSaturation st phaseIdx (fs.saturation phaseIdx)
  let b := setPressure a phaseIdx (fs.pressure phaseIdx)
  let c := setDensity b phaseIdx (fs.density phaseIdx)
  let d := if eE then setEnthalpy c phaseIdx (fs.enthalpy phaseIdx) else c
  setInvB d phaseIdx (getInvB_ fs phaseIdx pvtRegionIdx)

/-- The per-storage-phase loop of assign, running iterations 0 to k-1 in
increasing order. -/
def assignLoop (fs : SourceFluidState) (pvtRegionIdx : ℕ) :
    ℕ → BlackOilFluidStateSimple sys eT eE eD nSto → BlackOilFluidStateSimple sys eT eE eD nSto
  | 0, st => st
  | k + 1, st => assignStep fs pvtRegionIdx k (assignLoop fs pvtRegionIdx k st)

/-- assign, embedded from the source: copy the temperature when the
temperature or energy feature is on, the region index, the dissolution
ratios when the dissolution feature is on, and then the per-storage-phase
quantities. -/
def assign (st : BlackOilFluidStateSimple sys eT eE eD nSto) (fs : SourceFluidState) :
    BlackOilFluidStateSimple sys eT eE eD nSto :=
  let st1 := if (eT || eE) = true then setTemperature st (fs.temperature 0) else st
  let pvtRegionIdx := getPvtRegionIndex_ fs
  let st2 := setPvtRegionIndex st1 pvtRegionIdx
  let st3 :=
    if eD = true then setRv (setRs st2 (getRs_ fs pvtRegionIdx)) (getRv_ fs pvtRegionIdx)
    else st2
  assignLoop fs pvtRegionIdx nSto st3

/-- The cumulative effect on one array of a sequence of indexed writes:
iteration i writes value val i at position pos i, for i from 0 to k-1. -/
def writeSeq (pos : ℕ → ℕ) (val : ℕ → ℚ) : ℕ → (ℕ → ℚ) → ℕ → ℚ
  | 0, f => f
  | k + 1, f => fnUpdate (writeSeq pos val k f) (pos k) (val k)

/-- The storage position written by iteration i of the assign loop: the
storage index of the canonical phase of storage index i. -/
def phasePos (sys : FSys) (nSto : ℕ) (i : ℕ) : ℕ :=
  canonicalToStoragePhaseIndex_ sys nSto (storageToCanonicalPhaseIndex_ sys nSto i)

/-- The straight line through the points (x0, y0) and (x1, y1), evaluated at
x; the building block of table interpolation and of the nearest-slope linear
extrapolation. -/
def lerp (x0 y0 x1 y1 x : ℚ) : ℚ :=
  y0 + (x - x0) * (y1 - y0) / (x1 - x0)

/-- Modelled from the spec: evaluation of a one-dimensional interpolation
table with monotonically increasing breakpoints — piecewise linear between
consecutive breakpoints, and outside the tabulated range linear in the
nearest-slope sense (no clamping). -/
def interp : List (ℚ × ℚ) → ℚ → ℚ
  | [], _ => 0
  | [(_, y0)], _ => y0
  | [(x0, y0), (x1, y1)], x => lerp x0 y0 x1 y1 x
  | (x0, y0) :: (x1, y1) :: q :: t, x =>
      if x ≤ x1 then lerp x0 y0 x1 y1 x
      else interp ((x1, y1) :: q :: t) x

/-- Modelled from the spec: evaluation of a two-dimensional table, a family
of pressure-indexed curves keyed by the dissolution ratio, interpolated first
along pressure in each curve and then along the ratio. -/
def interp2 (grid : List (ℚ × List (ℚ × ℚ))) (ratioKey x : ℚ) : ℚ :=
  interp (grid.map (fun row => (row.1, interp row.2 x))) ratioKey

/-- Modelled from the spec: a table-backed oil PVT model — per PVT region a
pressure-indexed table of saturated gas dissolution factors, and ratio-keyed
grids for the undersaturated inverse formation volume factor and viscosity. -/
structure OilPvt where
  rsTables : List (List (ℚ × ℚ))
  invBGrids : List (List (ℚ × List (ℚ × ℚ)))
  viscGrids : List (List (ℚ × List (ℚ × ℚ)))

/-- Modelled from the spec: the maximum dissolution ratio achievable at the
given conditions, interpolated from the region's saturated table. -/
def OilPvt.saturatedGasDissolutionFactor (m : OilPvt) (regionIdx : ℕ) (_T p : ℚ) : ℚ :=
  interp (m.rsTables.getD regionIdx []) p

/-- Modelled from the spec: the undersaturated-branch inverse formation
volume factor, evaluated from the region's grid at the given pressure and
dissolution ratio. -/
def OilPvt.inverseFormationVolumeFactor (m : OilPvt) (regionIdx : ℕ) (_T p rsVal : ℚ) : ℚ :=
  interp2 (m.invBGrids.getD regionIdx []) rsVal p

/-- Modelled from the spec: "saturatedInverseFormationVolumeFactor(region, T,
p) is invB evaluated exactly at the saturated dissolution ratio for that
pressure". -/
def OilPvt.saturatedInverseFormationVolumeFactor (m : OilPvt) (regionIdx : ℕ) (tK p : ℚ) : ℚ :=
  m.inverseFormationVolumeFactor regionIdx tK p (m.saturatedGasDissolutionFactor regionIdx tK p)

/-- Modelled from the spec: the undersaturated-branch viscosity from the
region's grid. -/
def OilPvt.viscosity (m : OilPvt) (regionIdx : ℕ) (_T p rsVal : ℚ) : ℚ :=
  interp2 (m.viscGrids.getD regionIdx []) rsVal p

/-- Modelled from the spec: the saturated-branch viscosity, evaluated exactly
at the saturated dissolution ratio for that pressure. -/
def OilPvt.saturatedViscosity (m : OilPvt) (regionIdx : ℕ) (tK p : ℚ) : ℚ :=
  m.viscosity regionIdx tK p (m.saturatedGasDissolutionFactor regionIdx tK p)

/-- Modelled from the spec: a table-backed gas PVT model, mirror image of the
oil model with the oil vaporization factor in place of the dissolution
factor. -/
structure GasPvt where
  rvTables : List (List (ℚ × ℚ))
  invBGrids : List (List (ℚ × List (ℚ × ℚ)))
  viscGrids : List (List (ℚ × List (ℚ × ℚ)))

/-- Modelled from the spec: the maximum vaporized-oil ratio achievable at the
given conditions, interpolated from the region's saturated table. -/
def GasPvt.saturatedOilVaporizationFactor (m : GasPvt) (regionIdx : ℕ) (_T p : ℚ) : ℚ :=
  interp (m.rvTables.getD regionIdx []) p

/-- Modelled from the spec: the undersaturated-branch inverse formation
volume factor of gas at the given pressure and vaporized-oil ratio. -/
def GasPvt.inverseFormationVolumeFactor (m : GasPvt) (regionIdx : ℕ) (_T p rvVal : ℚ) : ℚ :=
  interp2 (m.invBGrids.getD regionIdx []) rvVal p

/-- Modelled from the spec: the saturated-branch inverse formation volume
factor of gas, evaluated exactly at the saturated vaporized-oil ratio. -/
def GasPvt.saturatedInverseFormationVolumeFactor (m : GasPvt) (regionIdx : ℕ) (tK p : ℚ) : ℚ :=
  m.inverseFormationVolumeFactor regionIdx tK p (m.saturatedOilVaporizationFactor regionIdx tK p)

/-- Modelled from the spec: the undersaturated-branch viscosity of gas. -/
def GasPvt.viscosity (m : GasPvt) (regionIdx : ℕ) (_T p rvVal : ℚ) : ℚ :=
  interp2 (m.viscGrids.getD regionIdx []) rvVal p

/-- Modelled from the spec: the saturated-branch viscosity of gas, evaluated
exactly at the saturated vaporized-oil ratio. -/
def GasPvt.saturatedViscosity (m : GasPvt) (regionIdx : ℕ) (tK p : ℚ) : ℚ :=
  m.viscosity regionIdx tK p (m.saturatedOilVaporizationFactor regionIdx tK p)

/-- A concrete single-region oil model used by evaluation witnesses. -/
def oilSample : OilPvt :=
  { rsTables := [[(1, 2), (3, 5)]]
    invBGrids := [[(0, [(1, 1), (3, 2)]), (10, [(1, 3), (3, 7)])]]
    viscGrids := [[(0, [(1, 5), (3, 4)]), (10, [(1, 9), (3, 6)])]] }

/-- A concrete single-region gas model used by evaluation witnesses. -/
def gasSample : GasPvt :=
  { rvTables := [[(1, 1), (2, 4)]]
    invBGrids := [[(0, [(1, 2), (2, 3)]), (8, [(1, 4), (2, 9)])]]
    viscGrids := [[(0, [(1, 6), (2, 5)]), (8, [(1, 8), (2, 7)])]] }

/-- A concrete fluid system whose regions have distinct reservoir
temperatures: region 0 sits at 300 kelvin and every other region at 350
kelvin, all phases active. -/
def sysX : FSys :=
  mkFSys true true true (fun r => if r = 0 then 300 else 350)

/-- A concrete state in region 0 of sysX with both the temperature and the
energy features disabled. -/
def stRegion0 : BlackOilFluidStateSimple sysX false false true 3 :=
  { temperature_ := CondVal.fill (false || false) 0
    enthalpy_ := CondVal.fill false (fun _ => 0)
    pressure_ := fun _ => 0
    saturation_ := fun _ => 0
    invB_ := fun _ => 0
    density_ := fun _ => 0
    Rs_ := CondVal.fill true 0
    Rv_ := CondVal.fill true 0
    pvtRegionIdx_ := 0 }

/-- A concrete state in region 1 of sysX with both the temperature and the
energy features disabled. -/
def stRegion1 : BlackOilFluidStateSimple sysX false false true 3 :=
  { stRegion0 with pvtRegionIdx_ := 1 }

/-- A concrete state with temperature enabled and energy disabled, used to
witness the disabled-feature setter guards. -/
def stTempOnly : BlackOilFluidStateSimple sysX true false true 3 :=
  { temperature_ := CondVal.fill (true || false) 400
    enthalpy_ := CondVal.fill false (fun _ => 0)
    pressure_ := fun _ => 0
    saturation_ := fun _ => 0
    invB_ := fun _ => 0
    density_ := fun _ => 0
    Rs_ := CondVal.fill true 0
    Rv_ := CondVal.fill true 0
    pvtRegionIdx_ := 0 }

/-- A concrete state with the energy feature enabled: enthalpy 7, pressure 10
and density 2 in every phase slot. -/
def stEnergy : BlackOilFluidStateSimple sysX false true true 3 :=
  { temperature_ := CondVal.fill (false || true) 350
    enthalpy_ := CondVal.fill true (fun _ => 7)
    pressure_ := fun _ => 10
    saturation_ := fun _ => 0
    invB_ := fun _ => 0
    density_ := fun _ => 2
    Rs_ := CondVal.fill true 0
    Rv_ := CondVal.fill true 0
    pvtRegionIdx_ := 0 }

/-- A concrete source fluid state used by the assign witnesses. -/
def srcSample : SourceFluidState :=
  { temperature := fun ph => 280 + ph
    pressure := fun ph => 100 + ph
    saturation := fun ph => (1 + ph) / 10
    density := fun ph => 800 + ph
    enthalpy := fun ph => 50 + ph
    pvtRegionIndex := 1
    Rs := 35
    Rv := 4
    invB := fun ph => 2 + ph }

/-- C1: for every PVT region, temperature and pressure, evaluating the
undersaturated-branch inverse formation volume factor at the saturated
dissolution ratio equals the saturated-branch evaluation (exactly, hence
within any tolerance), and the same holds for viscosity against the
saturated viscosity, for both the oil and the gas PVT models. -/
theorem c1_saturated_line_consistency (oil : OilPvt) (gas : GasPvt) (regionIdx : ℕ) (tK p : ℚ) :
    oil.inverseFormationVolumeFactor regionIdx tK p
        (oil.saturatedGasDissolutionFactor regionIdx tK p)
      = oil.saturatedInverseFormationVolumeFactor regionIdx tK p
    ∧ oil.viscosity regionIdx tK p (oil.saturatedGasDissolutionFactor regionIdx tK p)
      = oil.saturatedViscosity regionIdx tK p
    ∧ gas.inverseFormationVolumeFactor regionIdx tK p
        (gas.saturatedOilVaporizationFactor regionIdx tK p)
      = gas.saturatedInverseFormationVolumeFactor regionIdx tK p
    ∧ gas.viscosity regionIdx tK p (gas.saturatedOilVaporizationFactor regionIdx tK p)
      = gas.saturatedViscosity regionIdx tK p :=
  ⟨rfl, rfl, rfl, rfl⟩

/-- C4: with the dissolution feature disabled, Rs and Rv return exactly zero
in every reachable state, and the setters abort instead of writing. -/
theorem c4_dissolution_disabled_zero {sys : FSys} {eT eE : Bool} {nSto : ℕ}
    (st : BlackOilFluidStateSimple sys eT eE false nSto) (v w : ℚ) :
    Rs st = 0 ∧ Rv st = 0 ∧ setRsChecked st v = none ∧ setRvChecked st w = none :=
  ⟨rfl, rfl, rfl, rfl⟩

/-- C10: setPvtRegionIndex stores the region index as an unsigned short, so
pvtRegionIndex returns the argument modulo 2^16; larger indices are silently
truncated. -/
theorem c10_pvt_region_truncation {sys : FSys} {eT eE eD : Bool} {nSto : ℕ}
    (st : BlackOilFluidStateSimple sys eT eE eD nSto) (n : ℕ) :
    pvtRegionIndex (setPvtRegionIndex st n) = n % 65536 :=
  rfl

/-- C9: with the energy feature enabled, internalEnergy is exactly the
enthalpy of the phase minus its pressure divided by its density. -/
theorem c9_internal_energy {sys : FSys} {eT eD : Bool} {nSto : ℕ}
    (st : BlackOilFluidStateSimple sys eT true eD nSto) (phaseIdx : ℕ) (e : ℚ)
    (h : enthalpy st phaseIdx = some e) :
    internalEnergy st phaseIdx = some (e - pressure st phaseIdx / density st phaseIdx) := by
  have h' : st.enthalpy_ (canonicalToStoragePhaseIndex_ sys nSto phaseIdx) = e := by
    simpa [enthalpy, CondVal.deref] using h
  simp [internalEnergy, CondVal.deref, h']

/-- Evaluation witness for C9 on a concrete energy-enabled state. -/
theorem c9_witness :
    internalEnergy stEnergy 0 = some (7 - pressure stEnergy 0 / density stEnergy 0) :=
  c9_internal_energy stEnergy 0 7 rfl

/-- Counterexample to C3 as stated: the fallback value is kept in a
function-local static that is initialised at the first fallback call, so a
later query on an instance configured for a different PVT region still
returns the first region's reservoir temperature. -/
theorem c3_counterexample :
    (temperature (temperature none stRegion0 0).2 stRegion1 0).1
      ≠ sysX.reservoirTemperature (pvtRegionIndex stRegion1) := by
  decide

/-- C3 (amended): with both the temperature and the energy features
disabled, temperature(phaseIdx) never fails; the first fallback query
returns the reservoir temperature of that instance's configured PVT region,
and every later query returns the value latched by the first one. -/
theorem c3_amended_temperature_fallback {sys : FSys} {eD eD' : Bool} {nSto nSto' : ℕ}
    (st : BlackOilFluidStateSimple sys false false eD nSto) (phaseIdx : ℕ)
    (st' : BlackOilFluidStateSimple sys false false eD' nSto') (phaseIdx' : ℕ) (tCached : ℚ) :
    (temperature none st phaseIdx).1 = sys.reservoirTemperature (pvtRegionIndex st)
      ∧ (temperature (some tCached) st' phaseIdx').1 = tCached :=
  ⟨rfl, rfl⟩

/-- C8: calling setEnthalpy in a configuration with the energy feature
disabled, or setTemperature with both features disabled, is stopped in debug
builds before any write to the conditional storage: setTemperature by its own
assertion, setEnthalpy by its assertion when the temperature feature is also
off and otherwise by the abort of the disabled conditional storage it
dereferences. -/
theorem c8_disabled_setter_guard {sys : FSys} {eT eD : Bool} {nSto : ℕ} (eE : Bool)
    (hE : eE = false) (st : BlackOilFluidStateSimple sys eT eE eD nSto)
    (phaseIdx : ℕ) (v w : ℚ) :
    setEnthalpyChecked st phaseIdx v = none
      ∧ (eT = false → setTemperatureChecked st w = none) := by
  subst hE
  refine ⟨?_, ?_⟩
  · cases eT <;> rfl
  · intro hT; subst hT; rfl

/-- Evaluation witness for C8: on a temperature-enabled, energy-disabled
state the checked setEnthalpy aborts. -/
theorem c8_witness : setEnthalpyChecked stTempOnly 0 5 = none :=
  (c8_disabled_setter_guard false rfl stTempOnly 0 5 6).1

/-- The line through two points with increasing abscissae and non-decreasing
ordinates is monotone. -/
theorem lerp_mono {x0 y0 x1 y1 : ℚ} (hx : x0 < x1) (hy : y0 ≤ y1) {a b : ℚ} (hab : a ≤ b) :
    lerp x0 y0 x1 y1 a ≤ lerp x0 y0 x1 y1 b := by
  unfold lerp
  have hd : (0 : ℚ) < x1 - x0 := by linarith
  have h1 : (a - x0) * (y1 - y0) ≤ (b - x0) * (y1 - y0) :=
    mul_le_mul_of_nonneg_right (by linarith) (by linarith)
  have h2 : (a - x0) * (y1 - y0) / (x1 - x0) ≤ (b - x0) * (y1 - y0) / (x1 - x0) :=
    (div_le_div_iff_of_pos_right hd).mpr h1
  linarith

/-- The line through two points passes through the first one. -/
theorem lerp_left_eval (x0 y0 x1 y1 : ℚ) : lerp x0 y0 x1 y1 x0 = y0 := by
  unfold lerp
  simp

/-- The line through two points with distinct abscissae passes through the
second one. -/
theorem lerp_right_eval {x0 x1 : ℚ} (y0 y1 : ℚ) (h : x0 < x1) :
    lerp x0 y0 x1 y1 x1 = y1 := by
  unfold lerp
  have hne : x1 - x0 ≠ 0 := sub_ne_zero_of_ne (ne_of_gt h)
  field_simp

/-- On a well-formed table, every evaluation at or beyond the first
breakpoint is at least the first tabulated value. -/
theorem interp_ge_first :
    ∀ (t : List (ℚ × ℚ)) (x1 y1 : ℚ),
      List.Chain' (· < ·) (((x1, y1) :: t).map Prod.fst) →
      List.Chain' (· ≤ ·) (((x1, y1) :: t).map Prod.snd) →
      ∀ x : ℚ, x1 ≤ x → y1 ≤ interp ((x1, y1) :: t) x := by
  intro t
  induction t with
  | nil =>
    intro x1 y1 _ _ x _
    simp [interp]
  | cons p2 t2 ih =>
    intro x1 y1 hk hv x hx
    obtain ⟨x2, y2⟩ := p2
    simp only [List.map_cons, List.chain'_cons] at hk hv
    cases t2 with
    | nil =>
      have hlow : y1 = lerp x1 y1 x2 y2 x1 := (lerp_left_eval x1 y1 x2 y2).symm
      calc y1 = lerp x1 y1 x2 y2 x1 := hlow
        _ ≤ lerp x1 y1 x2 y2 x := lerp_mono hk.1 hv.1 hx
    | cons p3 t3 =>
      show y1 ≤ interp ((x1, y1) :: (x2, y2) :: p3 :: t3) x
      by_cases hcase : x ≤ x2
      · have hgoal : interp ((x1, y1) :: (x2, y2) :: p3 :: t3) x = lerp x1 y1 x2 y2 x := by
          simp [interp, hcase]
        rw [hgoal]
        calc y1 = lerp x1 y1 x2 y2 x1 := (lerp_left_eval x1 y1 x2 y2).symm
          _ ≤ lerp x1 y1 x2 y2 x := lerp_mono hk.1 hv.1 hx
      · have hgoal : interp ((x1, y1) :: (x2, y2) :: p3 :: t3) x
            = interp ((x2, y2) :: p3 :: t3) x := by
          simp [interp, hcase]
        rw [hgoal]
        have h2x : x2 ≤ x := le_of_not_le hcase
        have htail := ih x2 y2 (by simpa using hk.2) (by simpa using hv.2) x h2x
        exact le_trans hv.1 htail

/-- Piecewise-linear table evaluation with nearest-slope extrapolation is
monotone whenever the breakpoints are strictly increasing and the tabulated
values are non-decreasing. -/
theorem interp_mono :
    ∀ t : List (ℚ × ℚ),
      List.Chain' (· < ·) (t.map Prod.fst) →
      List.Chain' (· ≤ ·) (t.map Prod.snd) →
      ∀ a b : ℚ, a ≤ b → interp t a ≤ interp t b := by
  intro t
  induction t with
  | nil =>
    intro _ _ a b _
    simp [interp]
  | cons p0 t0 ih =>
    obtain ⟨x0, y0⟩ := p0
    cases t0 with
    | nil =>
      intro _ _ a b _
      simp [interp]
    | cons p1 t1 =>
      obtain ⟨x1, y1⟩ := p1
      intro hk hv a b hab
      simp only [List.map_cons, List.chain'_cons] at hk hv
      cases t1 with
      | nil =>
        show lerp x0 y0 x1 y1 a ≤ lerp x0 y0 x1 y1 b
        exact lerp_mono hk.1 hv.1 hab
      | cons q t2 =>
        have hktail : List.Chain' (· < ·) (((x1, y1) :: q :: t2).map Prod.fst) := by
          simpa using hk.2
        have hvtail : List.Chain' (· ≤ ·) (((x1, y1) :: q :: t2).map Prod.snd) := by
          simpa using hv.2
        by_cases hb : b ≤ x1
        · have ha : a ≤ x1 := le_trans hab hb
          have hga : interp ((x0, y0) :: (x1, y1) :: q :: t2) a = lerp x0 y0 x1 y1 a := by
            simp [interp, ha]
          have hgb : interp ((x0, y0) :: (x1, y1) :: q :: t2) b = lerp x0 y0 x1 y1 b := by
            simp [interp, hb]
          rw [hga, hgb]
          exact lerp_mono hk.1 hv.1 hab
        · have hgb : interp ((x0, y0) :: (x1, y1) :: q :: t2) b
              = interp ((x1, y1) :: q :: t2) b := by
            simp [interp, hb]
          rw [hgb]
          have hx1b : x1 ≤ b := le_of_not_le hb
          by_cases ha : a ≤ x1
          · have hga : interp ((x0, y0) :: (x1, y1) :: q :: t2) a = lerp x0 y0 x1 y1 a := by
              simp [interp, ha]
            rw [hga]
            have h1 : lerp x0 y0 x1 y1 a ≤ y1 := by
              have := lerp_mono hk.1 hv.1 ha
              rwa [lerp_right_eval y0 y1 hk.1] at this
            exact le_trans h1 (interp_ge_first (q :: t2) x1 y1 hktail hvtail b hx1b)
          · have hga : interp ((x0, y0) :: (x1, y1) :: q :: t2) a
                = interp ((x1, y1) :: q :: t2) a := by
              simp [interp, ha]
            rw [hga]
            exact ih hktail hvtail a b hab

/-- C2: along the saturated line, the saturated gas dissolution factor and
the saturated oil vaporization factor are non-decreasing in pressure for
every region and temperature, given well-formed tables (strictly increasing
pressure breakpoints, non-decreasing tabulated factors). -/
theorem c2_saturated_line_monotone (oil : OilPvt) (gas : GasPvt) (regionIdx : ℕ)
    (tK p1 p2 : ℚ)
    (hkO : List.Chain' (· < ·) ((oil.rsTables.getD regionIdx []).map Prod.fst))
    (hvO : List.Chain' (· ≤ ·) ((oil.rsTables.getD regionIdx []).map Prod.snd))
    (hkG : List.Chain' (· < ·) ((gas.rvTables.getD regionIdx []).map Prod.fst))
    (hvG : List.Chain' (· ≤ ·) ((gas.rvTables.getD regionIdx []).map Prod.snd))
    (hp : p1 < p2) :
    oil.saturatedGasDissolutionFactor regionIdx tK p1
        ≤ oil.saturatedGasDissolutionFactor regionIdx tK p2
      ∧ gas.saturatedOilVaporizationFactor regionIdx tK p1
        ≤ gas.saturatedOilVaporizationFactor regionIdx tK p2 :=
  ⟨interp_mono _ hkO hvO p1 p2 hp.le, interp_mono _ hkG hvG p1 p2 hp.le⟩

/-- Evaluation witness for C2 on concrete single-region tables. -/
theorem c2_witness :
    oilSample.saturatedGasDissolutionFactor 0 273 100
        ≤ oilSample.saturatedGasDissolutionFactor 0 273 200
      ∧ gasSample.saturatedOilVaporizationFactor 0 273 100
        ≤ gasSample.saturatedOilVaporizationFactor 0 273 200 :=
  c2_saturated_line_monotone oilSample gasSample 0 273 100 200
    (by norm_num [oilSample, List.chain'_cons]) (by norm_num [oilSample, List.chain'_cons])
    (by norm_num [gasSample, List.chain'_cons]) (by norm_num [gasSample, List.chain'_cons])
    (by norm_num)

/-- C5: for every active-phase configuration, the two phase-index maps are
mutually inverse over the active set — canonical-to-storage after
storage-to-canonical is the identity on active storage indices, the other
composition is the identity on active canonical indices — and when three
phases are stored both maps are the identity outright. -/
theorem c5_phase_index_roundtrip (aw ao ag : Bool) (resT : ℕ → ℚ) :
    (∀ i, i < (mkActiveList aw ao ag).length →
        canonicalToStoragePhaseIndex_ (mkFSys aw ao ag resT) (mkActiveList aw ao ag).length
            (storageToCanonicalPhaseIndex_ (mkFSys aw ao ag resT)
              (mkActiveList aw ao ag).length i)
          = i)
      ∧ (∀ j, j ∈ mkActiveList aw ao ag →
        storageToCanonicalPhaseIndex_ (mkFSys aw ao ag resT) (mkActiveList aw ao ag).length
            (canonicalToStoragePhaseIndex_ (mkFSys aw ao ag resT)
              (mkActiveList aw ao ag).length j)
          = j)
      ∧ ((mkActiveList aw ao ag).length = 3 →
        ∀ k, storageToCanonicalPhaseIndex_ (mkFSys aw ao ag resT)
              (mkActiveList aw ao ag).length k = k
          ∧ canonicalToStoragePhaseIndex_ (mkFSys aw ao ag resT)
              (mkActiveList aw ao ag).length k = k) := by
  refine ⟨?_, ?_, ?_⟩
  · simp only [storageToCanonicalPhaseIndex_, canonicalToStoragePhaseIndex_, mkFSys]
    cases aw <;> cases ao <;> cases ag <;> decide
  · simp only [storageToCanonicalPhaseIndex_, canonicalToStoragePhaseIndex_, mkFSys]
    cases aw <;> cases ao <;> cases ag <;> decide
  · intro h3 k
    constructor
    · simp [storageToCanonicalPhaseIndex_, h3]
    · simp [canonicalToStoragePhaseIndex_, h3]

/-- Evaluation witness for C5 in the water-and-gas configuration. -/
theorem c5_witness :
    canonicalToStoragePhaseIndex_ (mkFSys true false true (fun _ => 0))
        (mkActiveList true false true).length
        (storageToCanonicalPhaseIndex_ (mkFSys true false true (fun _ => 0))
          (mkActiveList true false true).length 1)
      = 1 :=
  (c5_phase_index_roundtrip true false true (fun _ => 0)).1 1 (by decide)

/-- A position not written by any iteration keeps its previous value. -/
theorem writeSeq_untouched (pos : ℕ → ℕ) (val : ℕ → ℚ) :
    ∀ (k : ℕ) (f : ℕ → ℚ) (j : ℕ), (∀ i, i < k → pos i ≠ j) → writeSeq pos val k f j = f j := by
  intro k
  induction k with
  | zero => intro f j _; rfl
  | succ k ih =>
    intro f j h
    show fnUpdate (writeSeq pos val k f) (pos k) (val k) j = f j
    unfold fnUpdate
    rw [if_neg (fun hj => h k (Nat.lt_succ_self k) hj.symm)]
    exact ih f j (fun i hik => h i (Nat.lt_succ_of_lt hik))

/-- The result of a write sequence at a position depends on the initial
array only where no iteration writes. -/
theorem writeSeq_agree (pos : ℕ → ℕ) (val : ℕ → ℚ) :
    ∀ (k : ℕ) (f g : ℕ → ℚ) (j : ℕ),
      (g j = f j ∨ ∃ i, i < k ∧ pos i = j) →
      writeSeq pos val k g j = writeSeq pos val k f j := by
  intro k
  induction k with
  | zero =>
    intro f g j h
    rcases h with h | ⟨i, hi, _⟩
    · exact h
    · exact absurd hi (Nat.not_lt_zero i)
  | succ k ih =>
    intro f g j h
    show fnUpdate (writeSeq pos val k g) (pos k) (val k) j
        = fnUpdate (writeSeq pos val k f) (pos k) (val k) j
    unfold fnUpdate
    by_cases hj : j = pos k
    · rw [if_pos hj, if_pos hj]
    · rw [if_neg hj, if_neg hj]
      apply ih
      rcases h with h | ⟨i, hik, hpi⟩
      · exact Or.inl h
      · refine Or.inr ⟨i, ?_, hpi⟩
        have hne : i ≠ k := fun he => hj (he ▸ hpi).symm
        exact Nat.lt_of_le_of_ne (Nat.le_of_lt_succ hik) hne

/-- Replaying an identical write sequence leaves the array unchanged. -/
theorem writeSeq_idem (pos : ℕ → ℕ) (val : ℕ → ℚ) (k : ℕ) (f : ℕ → ℚ) :
    writeSeq pos val k (writeSeq pos val k f) = writeSeq pos val k f := by
  funext j
  apply writeSeq_agree
  by_cases hw : ∃ i, i < k ∧ pos i = j
  · exact Or.inr hw
  · push_neg at hw
    exact Or.inl (writeSeq_untouched pos val k f j hw)

/-- At a position whose last writer is iteration i, the write sequence
stores value i. -/
theorem writeSeq_last (pos : ℕ → ℕ) (val : ℕ → ℚ) :
    ∀ (k : ℕ) (f : ℕ → ℚ) (i : ℕ), i < k →
      (∀ i', i < i' → i' < k → pos i' ≠ pos i) →
      writeSeq pos val k f (pos i) = val i := by
  intro k
  induction k with
  | zero => intro f i hik _; exact absurd hik (Nat.not_lt_zero i)
  | succ k ih =>
    intro f i hik hinj
    show fnUpdate (writeSeq pos val k f) (pos k) (val k) (pos i) = val i
    unfold fnUpdate
    by_cases he : i = k
    · subst he
      rw [if_pos rfl]
    · have hik' : i < k := Nat.lt_of_le_of_ne (Nat.le_of_lt_succ hik) he
      rw [if_neg (fun h => hinj k hik' (Nat.lt_succ_self k) h.symm)]
      exact ih f i hik' (fun i' h1 h2 => hinj i' h1 (Nat.lt_succ_of_lt h2))

/-- Two values of a disabled conditional storage are equal. -/
theorem condval_false_eq {α : Type} (x y : CondVal false α) : x = y := by
  have h : ∀ a b : PUnit, a = b := fun a b => by cases a; cases b; rfl
  exact h x y

/-- Extensionality for the fluid state: equal fields give equal states. -/
theorem bofs_ext {x y : BlackOilFluidStateSimple sys eT eE eD nSto}
    (h1 : x.temperature_ = y.temperature_) (h2 : x.enthalpy_ = y.enthalpy_)
    (h3 : x.pressure_ = y.pressure_) (h4 : x.saturation_ = y.saturation_)
    (h5 : x.invB_ = y.invB_) (h6 : x.density_ = y.density_)
    (h7 : x.Rs_ = y.Rs_) (h8 : x.Rv_ = y.Rv_)
    (h9 : x.pvtRegionIdx_ = y.pvtRegionIdx_) : x = y := by
  cases x
  cases y
  congr 1

/-- One loop iteration acts on the pressure array as a single write. -/
theorem assignStep_pressure_ (fs : SourceFluidState) (reg i : ℕ)
    (st : BlackOilFluidStateSimple sys eT eE eD nSto) :
    (assignStep fs reg i st).pressure_
      = fnUpdate st.pressure_ (phasePos sys nSto i)
          (fs.pressure (storageToCanonicalPhaseIndex_ sys nSto i)) := by
  cases eE <;> rfl

/-- One loop iteration acts on the saturation array as a single write. -/
theorem assignStep_saturation_ (fs : SourceFluidState) (reg i : ℕ)
    (st : BlackOilFluidStateSimple sys eT eE eD nSto) :
    (assignStep fs reg i st).saturation_
      = fnUpdate st.saturation_ (phasePos sys nSto i)
          (fs.saturation (storageToCanonicalPhaseIndex_ sys nSto i)) := by
  cases eE <;> rfl

/-- One loop iteration acts on the density array as a single write. -/
theorem assignStep_density_ (fs : SourceFluidState) (reg i : ℕ)
    (st : BlackOilFluidStateSimple sys eT eE eD nSto) :
    (assignStep fs reg i st).density_
      = fnUpdate st.density_ (phasePos sys nSto i)
          (fs.density (storageToCanonicalPhaseIndex_ sys nSto i)) := by
  cases eE <;> rfl

/-- One loop iteration acts on the invB array as a single write. -/
theorem assignStep_invB_ (fs : SourceFluidState) (reg i : ℕ)
    (st : BlackOilFluidStateSimple sys eT eE eD nSto) :
    (assignStep fs reg i st).invB_
      = fnUpdate st.invB_ (phasePos sys nSto i)
          (getInvB_ fs (storageToCanonicalPhaseIndex_ sys nSto i) reg) := by
  cases eE <;> rfl

/-- One loop iteration leaves the temperature storage unchanged. -/
theorem assignStep_temperature_ (fs : SourceFluidState) (reg i : ℕ)
    (st : BlackOilFluidStateSimple sys eT eE eD nSto) :
    (assignStep fs reg i st).temperature_ = st.temperature_ := by
  cases eE <;> rfl

/-- One loop iteration leaves the Rs storage unchanged. -/
theorem assignStep_Rs_ (fs : SourceFluidState) (reg i : ℕ)
    (st : BlackOilFluidStateSimple sys eT eE eD nSto) :
    (assignStep fs reg i st).Rs_ = st.Rs_ := by
  cases eE <;> rfl

/-- One loop iteration leaves the Rv storage unchanged. -/
theorem assignStep_Rv_ (fs : SourceFluidState) (reg i : ℕ)
    (st : BlackOilFluidStateSimple sys eT eE eD nSto) :
    (assignStep fs reg i st).Rv_ = st.Rv_ := by
  cases eE <;> rfl

/-- One loop iteration leaves the region index unchanged. -/
theorem assignStep_pvt (fs : SourceFluidState) (reg i : ℕ)
    (st : BlackOilFluidStateSimple sys eT eE eD nSto) :
    (assignStep fs reg i st).pvtRegionIdx_ = st.pvtRegionIdx_ := by
  cases eE <;> rfl

/-- With the energy feature on, one loop iteration acts on the enthalpy
array as a single write. -/
theorem assignStep_enthalpy_true (fs : SourceFluidState) (reg i : ℕ)
    (st : BlackOilFluidStateSimple sys eT true eD nSto) :
    (assignStep fs reg i st).enthalpy_
      = fnUpdate st.enthalpy_ (phasePos sys nSto i)
          (fs.enthalpy (storageToCanonicalPhaseIndex_ sys nSto i)) :=
  rfl

/-- With the energy feature off, one loop iteration leaves the (absent)
enthalpy storage unchanged. -/
theorem assignStep_enthalpy_false (fs : SourceFluidState) (reg i : ℕ)
    (st : BlackOilFluidStateSimple sys eT false eD nSto) :
    (assignStep fs reg i st).enthalpy_ = st.enthalpy_ :=
  rfl

/-- The assign loop acts on the pressure array as the matching write
sequence. -/
theorem assignLoop_pressure_ (fs : SourceFluidState) (reg : ℕ) :
    ∀ (k : ℕ) (st : BlackOilFluidStateSimple sys eT eE eD nSto),
      (assignLoop fs reg k st).pressure_
        = writeSeq (phasePos sys nSto)
            (fun i => fs.pressure (storageToCanonicalPhaseIndex_ sys nSto i)) k st.pressure_ := by
  intro k
  induction k with
  | zero => intro st; rfl
  | succ k ih =>
    intro st
    show (assignStep fs reg k (assignLoop fs reg k st)).pressure_ = _
    rw [assignStep_pressure_, ih]
    rfl

/-- The assign loop acts on the saturation array as the matching write
sequence. -/
theorem assignLoop_saturation_ (fs : SourceFluidState) (reg : ℕ) :
    ∀ (k : ℕ) (st : BlackOilFluidStateSimple sys eT eE eD nSto),
      (assignLoop fs reg k st).saturation_
        = writeSeq (phasePos sys nSto)
            (fun i => fs.saturation (storageToCanonicalPhaseIndex_ sys nSto i)) k st.saturation_ := by
  intro k
  induction k with
  | zero => intro st; rfl
  | succ k ih =>
    intro st
    show (assignStep fs reg k (assignLoop fs reg k st)).saturation_ = _
    rw [assignStep_saturation_, ih]
    rfl

/-- The assign loop acts on the density array as the matching write
sequence. -/
theorem assignLoop_density_ (fs : SourceFluidState) (reg : ℕ) :
    ∀ (k : ℕ) (st : BlackOilFluidStateSimple sys eT eE eD nSto),
      (assignLoop fs reg k st).density_
        = writeSeq (phasePos sys nSto)
            (fun i => fs.density (storageToCanonicalPhaseIndex_ sys nSto i)) k st.density_ := by
  intro k
  induction k with
  | zero => intro st; rfl
  | succ k ih =>
    intro st
    show (assignStep fs reg k (assignLoop fs reg k st)).density_ = _
    rw [assignStep_density_, ih]
    rfl

/-- The assign loop acts on the invB array as the matching write sequence. -/
theorem assignLoop_invB_ (fs : SourceFluidState) (reg : ℕ) :
    ∀ (k : ℕ) (st : BlackOilFluidStateSimple sys eT eE eD nSto),
      (assignLoop fs reg k st).invB_
        = writeSeq (phasePos sys nSto)
            (fun i => getInvB_ fs (storageToCanonicalPhaseIndex_ sys nSto i) reg) k st.invB_ := by
  intro k
  induction k with
  | zero => intro st; rfl
  | succ k ih =>
    intro st
    show (assignStep fs reg k (assignLoop fs reg k st)).invB_ = _
    rw [assignStep_invB_, ih]
    rfl

/-- The assign loop leaves the temperature storage unchanged. -/
theorem assignLoop_temperature_ (fs : SourceFluidState) (reg : ℕ) :
    ∀ (k : ℕ) (st : BlackOilFluidStateSimple sys eT eE eD nSto),
      (assignLoop fs reg k st).temperature_ = st.temperature_ := by
  intro k
  induction k with
  | zero => intro st; rfl
  | succ k ih =>
    intro st
    show (assignStep fs reg k (assignLoop fs reg k st)).temperature_ = _
    rw [assignStep_temperature_, ih]

/-- The assign loop leaves the Rs storage unchanged. -/
theorem assignLoop_Rs_ (fs : SourceFluidState) (reg : ℕ) :
    ∀ (k : ℕ) (st : BlackOilFluidStateSimple sys eT eE eD nSto),
      (assignLoop fs reg k st).Rs_ = st.Rs_ := by
  intro k
  induction k with
  | zero => intro st; rfl
  | succ k ih =>
    intro st
    show (assignStep fs reg k (assignLoop fs reg k st)).Rs_ = _
    rw [assignStep_Rs_, ih]

/-- The assign loop leaves the Rv storage unchanged. -/
theorem assignLoop_Rv_ (fs : SourceFluidState) (reg : ℕ) :
    ∀ (k : ℕ) (st : BlackOilFluidStateSimple sys eT eE eD nSto),
      (assignLoop fs reg k st).Rv_ = st.Rv_ := by
  intro k
  induction k with
  | zero => intro st; rfl
  | succ k ih =>
    intro st
    show (assignStep fs reg k (assignLoop fs reg k st)).Rv_ = _
    rw [assignStep_Rv_, ih]

/-- The assign loop leaves the region index unchanged. -/
theorem assignLoop_pvt (fs : SourceFluidState) (reg : ℕ) :
    ∀ (k : ℕ) (st : BlackOilFluidStateSimple sys eT eE eD nSto),
      (assignLoop fs reg k st).pvtRegionIdx_ = st.pvtRegionIdx_ := by
  intro k
  induction k with
  | zero => intro st; rfl
  | succ k ih =>
    intro st
    show (assignStep fs reg k (assignLoop fs reg k st)).pvtRegionIdx_ = _
    rw [assignStep_pvt, ih]

/-- With the energy feature on, the assign loop acts on the enthalpy array
as the matching write sequence. -/
theorem assignLoop_enthalpy_true (fs : SourceFluidState) (reg : ℕ) :
    ∀ (k : ℕ) (st : BlackOilFluidStateSimple sys eT true eD nSto),
      (assignLoop fs reg k st).enthalpy_
        = writeSeq (phasePos sys nSto)
            (fun i => fs.enthalpy (storageToCanonicalPhaseIndex_ sys nSto i)) k st.enthalpy_ := by
  intro k
  induction k with
  | zero => intro st; rfl
  | succ k ih =>
    intro st
    show (assignStep fs reg k (assignLoop fs reg k st)).enthalpy_ = _
    rw [assignStep_enthalpy_true, ih]
    rfl

/-- With the energy feature off, the assign loop leaves the (absent)
enthalpy storage unchanged. -/
theorem assignLoop_enthalpy_false (fs : SourceFluidState) (reg : ℕ) :
    ∀ (k : ℕ) (st : BlackOilFluidStateSimple sys eT false eD nSto),
      (assignLoop fs reg k st).enthalpy_ = st.enthalpy_ := by
  intro k
  induction k with
  | zero => intro st; rfl
  | succ k ih =>
    intro st
    show (assignStep fs reg k (assignLoop fs reg k st)).enthalpy_ = _
    rw [assignStep_enthalpy_false, ih]

/-- assign acts on the pressure array as a write sequence over the stored
phases, independently of the previous values it overwrites. -/
theorem assign_pressure_ (st : BlackOilFluidStateSimple sys eT eE eD nSto)
    (fs : SourceFluidState) :
    (assign st fs).pressure_
      = writeSeq (phasePos sys nSto)
          (fun i => fs.pressure (storageToCanonicalPhaseIndex_ sys nSto i)) nSto st.pressure_ := by
  simp only [assign, assignLoop_pressure_]
  cases eD <;> cases eT <;> cases eE <;> rfl

/-- assign acts on the saturation array as a write sequence. -/
theorem assign_saturation_ (st : BlackOilFluidStateSimple sys eT eE eD nSto)
    (fs : SourceFluidState) :
    (assign st fs).saturation_
      = writeSeq (phasePos sys nSto)
          (fun i => fs.saturation (storageToCanonicalPhaseIndex_ sys nSto i)) nSto st.saturation_ := by
  simp only [assign, assignLoop_saturation_]
  cases eD <;> cases eT <;> cases eE <;> rfl

/-- assign acts on the density array as a write sequence. -/
theorem assign_density_ (st : BlackOilFluidStateSimple sys eT eE eD nSto)
    (fs : SourceFluidState) :
    (assign st fs).density_
      = writeSeq (phasePos sys nSto)
          (fun i => fs.density (storageToCanonicalPhaseIndex_ sys nSto i)) nSto st.density_ := by
  simp only [assign, assignLoop_density_]
  cases eD <;> cases eT <;> cases eE <;> rfl

/-- assign acts on the invB array as a write sequence of helper-derived
values. -/
theorem assign_invB_ (st : BlackOilFluidStateSimple sys eT eE eD nSto)
    (fs : SourceFluidState) :
    (assign st fs).invB_
      = writeSeq (phasePos sys nSto)
          (fun i => getInvB_ fs (storageToCanonicalPhaseIndex_ sys nSto i) (getPvtRegionIndex_ fs))
          nSto st.invB_ := by
  simp only [assign, assignLoop_invB_]
  cases eD <;> cases eT <;> cases eE <;> rfl

/-- assign overwrites the temperature storage from the source exactly when a
temperature-carrying feature is enabled. -/
theorem assign_temperature_ (st : BlackOilFluidStateSimple sys eT eE eD nSto)
    (fs : SourceFluidState) :
    (assign st fs).temperature_
      = if (eT || eE) = true then CondVal.set (eT || eE) st.temperature_ (fs.temperature 0)
        else st.temperature_ := by
  simp only [assign, assignLoop_temperature_]
  cases eD <;> cases eT <;> cases eE <;> rfl

/-- assign stores the source's region index truncated to unsigned short. -/
theorem assign_pvt (st : BlackOilFluidStateSimple sys eT eE eD nSto)
    (fs : SourceFluidState) :
    (assign st fs).pvtRegionIdx_ = getPvtRegionIndex_ fs % 65536 := by
  simp only [assign, assignLoop_pvt]
  cases eD <;> cases eT <;> cases eE <;> rfl

/-- assign overwrites the Rs storage from the helper exactly when the
dissolution feature is enabled. -/
theorem assign_Rs_ (st : BlackOilFluidStateSimple sys eT eE eD nSto)
    (fs : SourceFluidState) :
    (assign st fs).Rs_
      = if eD = true then CondVal.set eD st.Rs_ (getRs_ fs (getPvtRegionIndex_ fs))
        else st.Rs_ := by
  simp only [assign, assignLoop_Rs_]
  cases eD <;> cases eT <;> cases eE <;> rfl

/-- assign overwrites the Rv storage from the helper exactly when the
dissolution feature is enabled. -/
theorem assign_Rv_ (st : BlackOilFluidStateSimple sys eT eE eD nSto)
    (fs : SourceFluidState) :
    (assign st fs).Rv_
      = if eD = true then CondVal.set eD st.Rv_ (getRv_ fs (getPvtRegionIndex_ fs))
        else st.Rv_ := by
  simp only [assign, assignLoop_Rv_]
  cases eD <;> cases eT <;> cases eE <;> rfl

/-- With the energy feature on, assign acts on the enthalpy array as a write
sequence. -/
theorem assign_enthalpy_true (st : BlackOilFluidStateSimple sys eT true eD nSto)
    (fs : SourceFluidState) :
    (assign st fs).enthalpy_
      = writeSeq (phasePos sys nSto)
          (fun i => fs.enthalpy (storageToCanonicalPhaseIndex_ sys nSto i)) nSto st.enthalpy_ := by
  simp only [assign, assignLoop_enthalpy_true]
  cases eD <;> cases eT <;> rfl

/-- With the energy feature off, assign leaves the (absent) enthalpy storage
unchanged. -/
theorem assign_enthalpy_false (st : BlackOilFluidStateSimple sys eT false eD nSto)
    (fs : SourceFluidState) :
    (assign st fs).enthalpy_ = st.enthalpy_ := by
  simp only [assign, assignLoop_enthalpy_false]
  cases eD <;> cases eT <;> rfl

/-- C7: assign is idempotent — assigning the same source twice leaves the
instance exactly as assigning it once, in every feature configuration and
for every fluid system. -/
theorem c7_assign_idempotent (st : BlackOilFluidStateSimple sys eT eE eD nSto)
    (fs : SourceFluidState) :
    assign (assign st fs) fs = assign st fs := by
  apply bofs_ext
  · simp only [assign_temperature_]
    cases eT <;> cases eE <;> rfl
  · cases eE
    · simp only [assign_enthalpy_false]
    · simp only [assign_enthalpy_true, writeSeq_idem]
  · simp only [assign_pressure_, writeSeq_idem]
  · simp only [assign_saturation_, writeSeq_idem]
  · simp only [assign_invB_, writeSeq_idem]
  · simp only [assign_density_, writeSeq_idem]
  · simp only [assign_Rs_]
    cases eD <;> rfl
  · simp only [assign_Rv_]
    cases eD <;> rfl
  · simp only [assign_pvt]

/-- For the active-phase configurations of the fluid system, the position
written by loop iteration i is i itself. -/
theorem mkFSys_pos_id (aw ao ag : Bool) (resT : ℕ → ℚ) :
    ∀ i, i < (mkActiveList aw ao ag).length →
      phasePos (mkFSys aw ao ag resT) (mkActiveList aw ao ag).length i = i := by
  simp only [phasePos, storageToCanonicalPhaseIndex_, canonicalToStoragePhaseIndex_, mkFSys]
  cases aw <;> cases ao <;> cases ag <;> decide

/-- C6: after assign(source), the region index is the source's (stored as
unsigned short), the temperature equals source.temperature(0) when a
temperature-carrying feature is on, Rs and Rv equal the helper-derived
source values when dissolution is on, and every stored phase, mapped through
the storage-to-canonical index map, carries the source's saturation,
pressure, density, invB and (with energy on) enthalpy; no range validation
is performed (assign is total).  The phase-index hypothesis states the
bijectivity of the active-phase maps, which holds in every active-phase
configuration of the fluid system. -/
theorem c6_assign_postcondition
    (hpos : ∀ i, i < nSto → phasePos sys nSto i = i)
    (st : BlackOilFluidStateSimple sys eT eE eD nSto) (fs : SourceFluidState) :
    pvtRegionIndex (assign st fs) = getPvtRegionIndex_ fs % 65536
    ∧ ((eT || eE) = true →
        CondVal.deref (eT || eE) (assign st fs).temperature_ = some (fs.temperature 0))
    ∧ (eD = true →
        Rs (assign st fs) = getRs_ fs (getPvtRegionIndex_ fs)
        ∧ Rv (assign st fs) = getRv_ fs (getPvtRegionIndex_ fs))
    ∧ ∀ i, i < nSto →
        saturation (assign st fs) (storageToCanonicalPhaseIndex_ sys nSto i)
            = fs.saturation (storageToCanonicalPhaseIndex_ sys nSto i)
        ∧ pressure (assign st fs) (storageToCanonicalPhaseIndex_ sys nSto i)
            = fs.pressure (storageToCanonicalPhaseIndex_ sys nSto i)
        ∧ density (assign st fs) (storageToCanonicalPhaseIndex_ sys nSto i)
            = fs.density (storageToCanonicalPhaseIndex_ sys nSto i)
        ∧ invB (assign st fs) (storageToCanonicalPhaseIndex_ sys nSto i)
            = getInvB_ fs (storageToCanonicalPhaseIndex_ sys nSto i) (getPvtRegionIndex_ fs)
        ∧ (eE = true →
            enthalpy (assign st fs) (storageToCanonicalPhaseIndex_ sys nSto i)
              = some (fs.enthalpy (storageToCanonicalPhaseIndex_ sys nSto i))) := by
  refine ⟨?_, ?_, ?_, ?_⟩
  · show (assign st fs).pvtRegionIdx_ = getPvtRegionIndex_ fs % 65536
    exact assign_pvt st fs
  · intro h
    rw [assign_temperature_, if_pos h]
    cases eT <;> cases eE <;> first | rfl | exact absurd h (by decide)
  · intro h
    subst h
    constructor
    · show CondVal.getOrElse true (assign st fs).Rs_ 0 = getRs_ fs (getPvtRegionIndex_ fs)
      rw [assign_Rs_]
      rfl
    · show CondVal.getOrElse true (assign st fs).Rv_ 0 = getRv_ fs (getPvtRegionIndex_ fs)
      rw [assign_Rv_]
      rfl
  · intro i hi
    have hinj : ∀ i', i < i' → i' < nSto →
        phasePos sys nSto i' ≠ phasePos sys nSto i := by
      intro i' h1 h2
      rw [hpos i' h2, hpos i hi]
      exact Nat.ne_of_gt h1
    refine ⟨?_, ?_, ?_, ?_, ?_⟩
    · show (assign st fs).saturation_ (phasePos sys nSto i) = _
      rw [assign_saturation_]
      exact writeSeq_last (phasePos sys nSto) _ nSto st.saturation_ i hi hinj
    · show (assign st fs).pressure_ (phasePos sys nSto i) = _
      rw [assign_pressure_]
      exact writeSeq_last (phasePos sys nSto) _ nSto st.pressure_ i hi hinj
    · show (assign st fs).density_ (phasePos sys nSto i) = _
      rw [assign_density_]
      exact writeSeq_last (phasePos sys nSto) _ nSto st.density_ i hi hinj
    · show (assign st fs).invB_ (phasePos sys nSto i) = _
      rw [assign_invB_]
      exact writeSeq_last (phasePos sys nSto) _ nSto st.invB_ i hi hinj
    · intro hE
      subst hE
      show some ((assign st fs).enthalpy_ (phasePos sys nSto i)) = _
      rw [assign_enthalpy_true]
      rw [writeSeq_last (phasePos sys nSto) _ nSto st.enthalpy_ i hi hinj]

/-- Evaluation witness for C6: the pressure of phase 1 after assigning the
sample source on an all-phases configuration. -/
theorem c6_witness :
    pressure (assign stRegion0 srcSample) (storageToCanonicalPhaseIndex_ sysX 3 1)
      = srcSample.pressure (storageToCanonicalPhaseIndex_ sysX 3 1) :=
  ((c6_assign_postcondition (by decide) stRegion0 srcSample).2.2.2 1 (by decide)).2.1

end Opm
